import Mathlib

/-!
Shallow embedding of `src/plugins/http_output.go` (the outbound-HTTP plugin of
the easegress/easegateway pipeline): configuration validation
(`httpOutputConfig.Prepare`), client construction (`HTTPOutputConstructor`),
the cancellation-aware send protocol (`httpOutput.send`) and the per-task
dispatch (`httpOutput.Run`).

External collaborators that are not part of the source file (the generic
`CommonConfig` base, `common.ScanTokens`, `url.ParseRequestURI`, the `regexp`
package, `tls.LoadX509KeyPair`, `ioutil.ReadFile`, the package-global
`supportedMethods` allow-list, the template expander
`ReplaceTokensInPattern`, `task.WithValue` and `http.NewRequest`) are
abstracted as fields of environment structures (`Env`, `RunEnv`): each is a
deterministic function, exactly as the spec consumes them at their interface.
-/

namespace HTTPOutput

/-! ### Go `strings.TrimSpace`, modelled on the character list -/

/-- Whitespace recognised by Go's `unicode.IsSpace` (restricted to the ASCII
range, which is all the configuration claims exercise). -/
def isGoSpace (c : Char) : Bool :=
  c = ' ' || c = '\t' || c = '\n' || c = '\r' || c = '\x0b' || c = '\x0c'

/-- Drop leading and trailing whitespace from a character list, as
`strings.TrimSpace` does. -/
def trimChars (l : List Char) : List Char :=
  ((l.dropWhile isGoSpace).reverse.dropWhile isGoSpace).reverse

/-- Go's `strings.TrimSpace` on strings. -/
def goTrim (s : String) : String :=
  String.mk (trimChars s.data)

/-! ### Data model of the configuration (`httpOutputConfig`, lines 26-48) -/

/-- The generic plugin-config base embedded in `httpOutputConfig`.
Modelled from the spec: "generic plugin configuration plumbing shared across
all plugin kinds (name, pipeline binding) — treated as a black-box base";
only the plugin name is observable from this file (via `Name()`). -/
structure CommonConfig where
  pluginName : String
  deriving DecidableEq, Repr

/-- A loaded TLS key pair, as returned by `tls.LoadX509KeyPair`;
opaque to this component beyond identity. -/
structure Certificate where
  certPEM : String
  keyPEM : String
  deriving DecidableEq, Repr

/-- `httpOutputConfig` (lines 26-48): the raw JSON fields plus the three
fields filled in by `Prepare` (`expectedResponseCode`, `cert`, `caCert`).
The compiled regular expression is represented by the pattern string it was
compiled from (matching is delegated to the environment, see `RunEnv`). -/
structure httpOutputConfig where
  common : CommonConfig
  URLPattern : String
  HeaderPatterns : List (String × String)
  Close : Bool
  RequestBodyBufferPattern : String
  Method : String
  ExpectedResponseCode : String
  TimeoutSec : Nat
  CertFile : String
  KeyFile : String
  CAFile : String
  Insecure : Bool
  RequestBodyIOKey : String
  ResponseCodeKey : String
  ResponseBodyIOKey : String
  expectedResponseCode : Option String
  cert : Option Certificate
  caCert : Option (List Nat)
  deriving DecidableEq, Repr

/-- The parts of a parsed `url.URL` that `Prepare` inspects (line 76). -/
structure URI where
  isAbs : Bool
  hostname : String
  scheme : String
  deriving DecidableEq, Repr

/-- Deterministic abstraction of the external functions `Prepare` calls:
`CommonConfig.Prepare`, `url.ParseRequestURI`, `common.ScanTokens`,
the package-global `supportedMethods` map, `regexp.Compile` (success only;
matching lives in `RunEnv`), `tls.LoadX509KeyPair` and `ioutil.ReadFile`. -/
structure Env where
  commonPrepareOK : CommonConfig → Bool
  parseRequestURI : String → Option URI
  scanTokensOK : String → Bool
  supportedMethods : String → Bool
  regexCompiles : String → Bool
  loadKeyPair : String → String → Option Certificate
  readFile : String → Option (List Nat)

/-- The errors `Prepare` can return, one constructor per `fmt.Errorf`
site (lines 58-138), plus the error propagated from `CommonConfig.Prepare`. -/
inductive PrepareError where
  | commonError
  | invalidURL
  | invalidURLPattern
  | invalidHeaderName
  | invalidHeaderNamePattern
  | invalidHeaderValuePattern
  | invalidHTTPMethod
  | invalidExpectedResponseCode
  | invalidBodyBufferPattern
  | invalidCertKeyFile
  | invalidCAFile
  deriving DecidableEq, Repr

/-- The header-pattern validation loop of `Prepare` (lines 87-101): first
failing entry decides the error (Go map iteration order is abstracted by the
list order). -/
def checkHeaders (env : Env) : List (String × String) → Option PrepareError
  | [] => none
  | (name, value) :: rest =>
    if (goTrim name).length = 0 then some PrepareError.invalidHeaderName
    else if env.scanTokensOK name = false then some PrepareError.invalidHeaderNamePattern
    else if env.scanTokensOK value = false then some PrepareError.invalidHeaderValuePattern
    else checkHeaders env rest

/-- The field-trimming block of `Prepare` (lines 64-73).  Note that
`RequestBodyBufferPattern` and the header patterns are not trimmed,
exactly as in the source. -/
def trimConfig (c : httpOutputConfig) : httpOutputConfig :=
  { c with
    URLPattern := goTrim c.URLPattern
    RequestBodyIOKey := goTrim c.RequestBodyIOKey
    Method := goTrim c.Method
    ExpectedResponseCode := goTrim c.ExpectedResponseCode
    CertFile := goTrim c.CertFile
    KeyFile := goTrim c.KeyFile
    CAFile := goTrim c.CAFile
    ResponseCodeKey := goTrim c.ResponseCodeKey
    ResponseBodyIOKey := goTrim c.ResponseBodyIOKey }

/-- The URL validity test of lines 75-80: parse as a request URI, absolute,
non-empty host, scheme in the `common.StrInSlice` list. -/
def urlValid (env : Env) (u : String) : Bool :=
  match env.parseRequestURI u with
  | none => false
  | some uri => uri.isAbs && !(uri.hostname == "") && ["http", "https"].contains uri.scheme

/-- The CA-file block of `Prepare` (lines 130-135) followed by the final
`return nil` (line 137). -/
def prepareCA (env : Env) (c : httpOutputConfig) : Except PrepareError httpOutputConfig :=
  if c.CAFile.length ≠ 0 then
    match env.readFile c.CAFile with
    | none => Except.error PrepareError.invalidCAFile
    | some bs => Except.ok { c with caCert := some bs }
  else Except.ok c

/-- `Prepare` after the trimming block (lines 75-137): URL checks, header
checks, method allow-list, regex compilation (the compiled matcher is
recorded as its pattern string), body-buffer template check, then the TLS
key-pair block (lines 122-128: silently skipped unless BOTH files are
non-empty) and the CA block.  The zero-timeout warning (lines 113-115) is a
log side effect with no effect on the result and is not modelled. -/
def prepareTrimmed (env : Env) (c : httpOutputConfig) : Except PrepareError httpOutputConfig :=
  if urlValid env c.URLPattern = false then Except.error PrepareError.invalidURL
  else if env.scanTokensOK c.URLPattern = false then Except.error PrepareError.invalidURLPattern
  else
    match checkHeaders env c.HeaderPatterns with
    | some e => Except.error e
    | none =>
      if env.supportedMethods c.Method = false then Except.error PrepareError.invalidHTTPMethod
      else if env.regexCompiles c.ExpectedResponseCode = false then
        Except.error PrepareError.invalidExpectedResponseCode
      else if env.scanTokensOK c.RequestBodyBufferPattern = false then
        Except.error PrepareError.invalidBodyBufferPattern
      else
        let c1 := { c with expectedResponseCode := some c.ExpectedResponseCode }
        if c1.CertFile.length ≠ 0 ∧ c1.KeyFile.length ≠ 0 then
          match env.loadKeyPair c1.CertFile c1.KeyFile with
          | none => Except.error PrepareError.invalidCertKeyFile
          | some k => prepareCA env { c1 with cert := some k }
        else prepareCA env c1

/-- `httpOutputConfig.Prepare` (lines 58-138): the `CommonConfig` base
prepare, then trimming, then all validation in source order. -/
def prepare (env : Env) (c : httpOutputConfig) : Except PrepareError httpOutputConfig :=
  if env.commonPrepareOK c.common = false then Except.error PrepareError.commonError
  else prepareTrimmed env (trimConfig c)

/-! ### `HTTPOutputConstructor` (lines 147-176): the TLS client builder -/

/-- The parts of `tls.Config` this component sets (lines 153-173). -/
structure TLSConfig where
  insecureSkipVerify : Bool
  certificates : List Certificate
  rootCAs : Option (List Nat)
  deriving DecidableEq, Repr

/-- The shared `http.Client` (lines 158-161): per-call timeout plus the
transport's TLS configuration. -/
structure HTTPClient where
  timeoutSec : Nat
  tls : TLSConfig
  deriving DecidableEq, Repr

/-- The `httpOutput` plugin value (lines 142-145). -/
structure httpOutput where
  conf : httpOutputConfig
  client : HTTPClient
  deriving DecidableEq, Repr

/-- `HTTPOutputConstructor` (lines 147-176): build the TLS config from the
validated configuration, install the client certificate when one was loaded,
install the CA pool when CA bytes were loaded. -/
def HTTPOutputConstructor (c : httpOutputConfig) : httpOutput :=
  let tls0 : TLSConfig := { insecureSkipVerify := c.Insecure, certificates := [], rootCAs := none }
  let tls1 := match c.cert with
    | some k => { tls0 with certificates := [k] }
    | none => tls0
  let tls2 := match c.caCert with
    | some bs => { tls1 with rootCAs := some bs }
    | none => tls1
  { conf := c, client := { timeoutSec := c.TimeoutSec, tls := tls2 } }

/-! ### Task model (the external `task.Task` contract consumed by `Run`) -/

/-- A readable byte stream as `Run` manipulates it: an opaque handle held in
task state, `io.LimitReader` wrapping (line 242), or the `bytes.Buffer` built
from the expanded body template (line 253).  A response body is a handle. -/
inductive Reader where
  | handle (id : Nat)
  | limit (n : Int) (r : Reader)
  | buffer (s : String)
  deriving DecidableEq, Repr

/-- A dynamically-typed task-state value (`interface{}`), with the variants
`Run` type-asserts against: an `io.Reader`, a `string`, an `int`,
the absent value `nil`, and anything else. -/
inductive TValue where
  | reader (r : Reader)
  | str (s : String)
  | int (n : Int)
  | null
  | other (tag : Nat)
  deriving DecidableEq, Repr

/-- The task error classifications this component uses
(`task.ResultServiceUnavailable`, `task.ResultTaskCancelled`,
`task.ResultMissingInput`, `task.ResultInternalServerError`). -/
inductive TaskResult where
  | serviceUnavailable
  | taskCancelled
  | missingInput
  | internalServerError
  deriving DecidableEq, Repr

/-- The error values this component records on the task, one constructor per
error-construction site in `send`/`Run`; each carries the data interpolated
into the Go error message. -/
inductive TErr where
  | transportErr (msg : String)
  | taskCancelled (cause : String)
  | wrongInput (key : String)
  | newRequestErr (msg : String)
  | codeMismatch (code : Int) (pat : String)
  | withValueErr (msg : String)
  deriving DecidableEq, Repr

/-- The observable state of a `task.Task` as consumed through its contract:
the key/value store, the error slot (error with classification), the names of
registered finished callbacks, and the cancellation cause string exposed by
`CancelCause()`.  Whether cancellation fires is part of the race outcome
(`RaceWinner`), not of the state. -/
structure Task where
  values : List (String × TValue)
  error : Option (TErr × TaskResult)
  finishedCallbacks : List String
  cancelCause : String
  deriving DecidableEq, Repr

/-- Assoc-list lookup for task state; an absent key reads as `nil`. -/
def lookupValue : List (String × TValue) → String → TValue
  | [], _ => TValue.null
  | (k, v) :: rest, key => if k = key then v else lookupValue rest key

/-- `t.Value(key)` (task contract). -/
def taskValue (t : Task) (key : String) : TValue :=
  lookupValue t.values key

/-- The `input, ok := inputValue.(io.Reader)` type assertion of line 228. -/
def isReaderValue : TValue → Bool
  | TValue.reader _ => true
  | _ => false

/-- `t.SetError(err, result)` (task contract): fill the error slot. -/
def setErrorT (t : Task) (e : TErr) (r : TaskResult) : Task :=
  { t with error := some (e, r) }

/-- `t.AddFinishedCallback(name, cb)` (task contract, idempotent add keyed by
name; only the registered names are observable here). -/
def addFinishedCallback (t : Task) (name : String) : Task :=
  { t with finishedCallbacks :=
      if t.finishedCallbacks.contains name then t.finishedCallbacks
      else t.finishedCallbacks ++ [name] }

/-- `t.DeleteFinishedCallback(name)` (task contract, idempotent remove). -/
def deleteFinishedCallback (t : Task) (name : String) : Task :=
  { t with finishedCallbacks := t.finishedCallbacks.filter (fun n => ¬ n = name) }

/-! ### `strconv.ParseInt(clen, 10, 64)` (line 240) -/

/-- Accumulate decimal digits; any non-digit fails the parse. -/
def parseDigits : List Char → Nat → Option Nat
  | [], acc => some acc
  | c :: rest, acc =>
    if c.isDigit then parseDigits rest (acc * 10 + (c.toNat - 48)) else none

/-- `strconv.ParseInt` base 10: optional sign then at least one digit.
The 64-bit range check is not modelled (status codes and content lengths in
the claims are tiny). -/
def parseInt64 (s : String) : Option Int :=
  match s.data with
  | [] => none
  | '+' :: rest =>
    if rest = [] then none else (parseDigits rest 0).map Int.ofNat
  | '-' :: rest =>
    if rest = [] then none else (parseDigits rest 0).map (fun n => -(Int.ofNat n))
  | ds => (parseDigits ds 0).map Int.ofNat

/-! ### `http.Header.Set` (net/textproto canonical keys) -/

/-- Characters of a valid MIME header token (ASCII letters, digits and the
common punctuation; enough for canonicalisation of every header the claims
touch). -/
def isTokenChar (c : Char) : Bool :=
  c.isAlphanum || c = '-' || c = '_' || c = '!' || c = '#' || c = '$' ||
  c = '%' || c = '&' || c = '*' || c = '+' || c = '.' || c = '^' || c = '~'

/-- Upper-case the first character and every character following a hyphen,
lower-case the rest (`textproto.canonicalMIMEHeaderKey`). -/
def canonChars : Bool → List Char → List Char
  | _, [] => []
  | upper, ch :: rest =>
    (if upper then ch.toUpper else ch.toLower) :: canonChars (ch == '-') rest

/-- `textproto.CanonicalMIMEHeaderKey`: canonicalise a valid token, return
invalid keys unchanged. -/
def canonicalMIMEHeaderKey (s : String) : String :=
  if s.data.all isTokenChar then String.mk (canonChars true s.data) else s

/-- `http.Header.Set` on an assoc-list model of the header map: replace the
entry with the canonical key if present, otherwise append it. -/
def setHeader (hs : List (String × String)) (k v : String) : List (String × String) :=
  let ck := canonicalMIMEHeaderKey k
  if hs.any (fun p => p.1 == ck) then
    hs.map (fun p => if p.1 == ck then (ck, v) else p)
  else hs ++ [(ck, v)]

/-- `http.Header.Get` restricted to one value per key. -/
def headerGet (hs : List (String × String)) (k : String) : Option String :=
  Option.map Prod.snd (hs.find? (fun p => p.1 == canonicalMIMEHeaderKey k))

/-! ### Request/response objects and the send race -/

/-- The outbound `http.Request` as `Run` builds it (lines 257-272). -/
structure HTTPRequest where
  method : String
  url : String
  body : Reader
  contentLength : Int
  headers : List (String × String)
  deriving DecidableEq, Repr

/-- The `http.Response` fields `Run` reads: status code and body stream. -/
structure HTTPResponse where
  statusCode : Int
  body : Reader
  deriving DecidableEq, Repr

/-- The single outcome the worker goroutine reports for `h.client.Do(req)`:
a response or a transport error (lines 199-203). -/
inductive WorkerOutcome where
  | success (resp : HTTPResponse)
  | failure (msg : String)
  deriving DecidableEq, Repr

/-- Which `select` case of `send` (lines 206-217) fires first.  Go guarantees
that exactly one case of a `select` executes; the winner is therefore an
input of the shallow embedding rather than something it derives. -/
inductive RaceWinner where
  | worker (w : WorkerOutcome)
  | cancel
  deriving DecidableEq, Repr

/-- What `send` produces: the (possibly error-annotated) task, the
`(*http.Response, error)` pair it returns, and whether it invoked `cancel()`
on the request's execution context. -/
structure SendResult where
  t : Task
  resp : Option HTTPResponse
  err : Option TErr
  contextCancelled : Bool
  deriving DecidableEq, Repr

/-- `httpOutput.send` (lines 182-218) as a function of the race winner:
  - worker success: return the response, no task write, no context cancel;
  - worker error: record it as service-unavailable and return it;
  - task cancellation: cancel the context, record a task-cancelled error
    carrying `t.CancelCause()`, and return it. -/
def send (t : Task) (req : HTTPRequest) (w : RaceWinner) : SendResult :=
  match w with
  | RaceWinner.worker (WorkerOutcome.success resp) =>
    { t := t, resp := some resp, err := none, contextCancelled := false }
  | RaceWinner.worker (WorkerOutcome.failure msg) =>
    { t := setErrorT t (TErr.transportErr msg) TaskResult.serviceUnavailable,
      resp := none, err := some (TErr.transportErr msg), contextCancelled := false }
  | RaceWinner.cancel =>
    { t := setErrorT t (TErr.taskCancelled t.cancelCause) TaskResult.taskCancelled,
      resp := none, err := some (TErr.taskCancelled t.cancelCause), contextCancelled := true }

/-- State of one of the two signal channels at the moment the losing worker
tries to use it: still open, or already closed by `send`'s deferred
`close(r)`/`close(e)` (lines 186-187).  A send on a closed channel, and a
blocked send whose channel is closed underneath it, both panic. -/
inductive ChanState where
  | opened
  | closed
  deriving DecidableEq, Repr

/-- How a channel send by the worker ends. -/
inductive ChanSendResult where
  | delivered
  | panicked
  deriving DecidableEq, Repr

/-- Go semantics of the worker's channel send given the channel's fate. -/
def chanSend : ChanState → ChanSendResult
  | ChanState.opened => ChanSendResult.delivered
  | ChanState.closed => ChanSendResult.panicked

/-- How the worker goroutine terminates. -/
inductive GoroutineResult where
  | normalExit
  | crashed
  deriving DecidableEq, Repr

/-- The tail of the worker goroutine (lines 192-204) after `Do` returned with
outcome `w`, given the fates of channels `e` and `r`: on an error it sends on
`e` and then STILL falls through to `r <- resp` (there is no `return` after
`e <- err` in the source); every panic raised by a send into a closed channel
is swallowed by the deferred `recover()` (line 196).  The body references no
task state, so it can write none. -/
def workerFinish (w : WorkerOutcome) (eFate rFate : ChanState) : GoroutineResult :=
  match w with
  | WorkerOutcome.failure _ =>
    match chanSend eFate with
    | ChanSendResult.panicked => GoroutineResult.normalExit
    | ChanSendResult.delivered =>
      match chanSend rFate with
      | ChanSendResult.panicked => GoroutineResult.normalExit
      | ChanSendResult.delivered => GoroutineResult.normalExit
  | WorkerOutcome.success _ =>
    match chanSend rFate with
    | ChanSendResult.panicked => GoroutineResult.normalExit
    | ChanSendResult.delivered => GoroutineResult.normalExit

/-! ### `httpOutput.Run` (lines 220-314) -/

/-- Deterministic abstraction of the externals `Run` calls:
`ReplaceTokensInPattern` (modelled from the spec: the template
token-substitution engine `expand(pattern, task) -> (string, error)`; `Run`
discards the error, so only the string component is kept), `http.NewRequest`
failure, `task.WithValue` (returns the updated-or-original task and an
error), the compiled regex matcher applied to a pattern, and
`task.ToString` on the status code. -/
structure RunEnv where
  replaceTokens : Task → String → String
  newRequestErr : String → String → Option String
  withValue : Task → String → TValue → Task × Option String
  matchRegex : String → String → Bool
  taskToString : Int → String

/-- How `Run` ends: a normal `return t, nil`, or a runtime panic (which in
this model can only arise from dereferencing a nil compiled matcher, i.e.
running with a configuration that never went through `Prepare`). -/
inductive RunOutcome where
  | ret (t : Task) (err : Option String)
  | panicked
  deriving DecidableEq, Repr

/-- Observable side effects of one `Run` call, beyond the returned task:
the request handed to `send` (if one was built), whether `send` was invoked,
whether the execution context got cancelled, which task-state keys were
successfully published, and whether the body-close finished callback was
registered. -/
structure RunEffects where
  requestBuilt : Option HTTPRequest
  networkCalled : Bool
  contextCancelled : Bool
  publishedKeys : List String
  callbackRegistered : Bool
  deriving DecidableEq, Repr

/-- Body determination (lines 225-255): with a configured
`request_body_io_key` the task field must be a reader (else the key is
returned as the missing-input error), optionally bounded by a parsable
non-negative `HTTP_CONTENT_LENGTH`; otherwise the expanded body-buffer
template becomes the body with its byte length as content length. -/
def determineBody (env : RunEnv) (conf : httpOutputConfig) (t : Task) :
    Except String (Reader × Int) :=
  if conf.RequestBodyIOKey.length ≠ 0 then
    match taskValue t conf.RequestBodyIOKey with
    | TValue.reader input =>
      (match taskValue t "HTTP_CONTENT_LENGTH" with
       | TValue.str clen =>
         (match parseInt64 clen with
          | some n => if 0 ≤ n then Except.ok (Reader.limit n input, n) else Except.ok (input, n)
          | none => Except.ok (input, 0))
       | _ => Except.ok (input, 0))
    | _ => Except.error conf.RequestBodyIOKey
  else
    let body := env.replaceTokens t conf.RequestBodyBufferPattern
    Except.ok (Reader.buffer body, Int.ofNat body.utf8ByteSize)

/-- The name under which the body-closing finished callback is registered
(line 309): `h.Name()` is `conf.PluginName()`. -/
def callbackName (conf : httpOutputConfig) : String :=
  conf.common.pluginName ++ "-closeHTTPOutputResponseBody"

/-- The registered callback `closeHTTPOutputResponseBody` (lines 303-307):
deregister itself, then close the response body.  The returned flag records
that the body's `Close` was invoked. -/
def closeHTTPOutputResponseBody (conf : httpOutputConfig) (t1 : Task) : Task × Bool :=
  (deleteFinishedCallback t1 (callbackName conf), true)

/-- The close-registration block of `Run` (lines 302-311) followed by the
final `return t, nil` (line 313).  Returns the outcome plus
`(publishedKeys, callbackRegistered)`. -/
def closeStage (conf : httpOutputConfig) (t : Task) (published : List String) :
    RunOutcome × List String × Bool :=
  if conf.Close then
    (RunOutcome.ret (addFinishedCallback t (callbackName conf)) none, published, true)
  else
    (RunOutcome.ret t none, published, false)

/-- The response-body publishing block of `Run` (lines 294-300) and what
follows it. -/
def publishBody (env : RunEnv) (conf : httpOutputConfig) (t : Task) (resp : HTTPResponse)
    (published : List String) : RunOutcome × List String × Bool :=
  if conf.ResponseBodyIOKey.length ≠ 0 then
    match env.withValue t conf.ResponseBodyIOKey (TValue.reader resp.body) with
    | (t2, some msg) =>
      (RunOutcome.ret (setErrorT t2 (TErr.withValueErr msg) TaskResult.internalServerError) none,
       published, false)
    | (t2, none) => closeStage conf t2 (published ++ [conf.ResponseBodyIOKey])
  else closeStage conf t published

/-- The response-code publishing block of `Run` (lines 286-292) and what
follows it. -/
def publishCode (env : RunEnv) (conf : httpOutputConfig) (t : Task) (resp : HTTPResponse) :
    RunOutcome × List String × Bool :=
  if conf.ResponseCodeKey.length ≠ 0 then
    match env.withValue t conf.ResponseCodeKey (TValue.int resp.statusCode) with
    | (t2, some msg) =>
      (RunOutcome.ret (setErrorT t2 (TErr.withValueErr msg) TaskResult.internalServerError) none,
       [], false)
    | (t2, none) => publishBody env conf t2 resp [conf.ResponseCodeKey]
  else publishBody env conf t resp []

/-- Request construction (lines 257-272): the request object with method,
expanded URL, body and explicit content length, the expanded header
name/value pairs set in iteration order, and finally the fixed
`User-Agent: EaseGateway` header (line 272). -/
def buildHeaders (env : RunEnv) (conf : httpOutputConfig) (t : Task)
    (reader : Reader) (length : Int) : HTTPRequest :=
  let link := env.replaceTokens t conf.URLPattern
  let req0 : HTTPRequest :=
    { method := conf.Method, url := link, body := reader, contentLength := length,
      headers := [] }
  let req1 := conf.HeaderPatterns.foldl
    (fun r p =>
      { r with headers :=
          setHeader r.headers (env.replaceTokens t p.1) (env.replaceTokens t p.2) }) req0
  { req1 with headers := setHeader req1.headers "User-Agent" "EaseGateway" }

/-- Everything `Run` does after `send` returns (lines 274-313): return on a
send error (the error is already on the task), check the status code against
the compiled matcher (a nil matcher, impossible after `Prepare`, would
panic), then publish and schedule the close. -/
def afterSend (env : RunEnv) (conf : httpOutputConfig) (req : HTTPRequest) (s : SendResult) :
    RunOutcome × RunEffects :=
  let base : RunEffects :=
    { requestBuilt := some req, networkCalled := true, contextCancelled := s.contextCancelled,
      publishedKeys := [], callbackRegistered := false }
  match s.err with
  | some _ => (RunOutcome.ret s.t none, base)
  | none =>
    match s.resp with
    | none => (RunOutcome.panicked, base)
    | some resp =>
      match conf.expectedResponseCode with
      | none => (RunOutcome.panicked, base)
      | some pat =>
        if env.matchRegex pat (env.taskToString resp.statusCode) = false then
          (RunOutcome.ret
             (setErrorT s.t (TErr.codeMismatch resp.statusCode conf.ExpectedResponseCode)
               TaskResult.internalServerError) none, base)
        else
          let pcr := publishCode env conf s.t resp
          (pcr.1, { base with publishedKeys := pcr.2.1, callbackRegistered := pcr.2.2 })

/-- `httpOutput.Run` (lines 220-314), parameterised over the race winner of
the one `send` it performs: expand the URL (the expander's error is
discarded, line 222), determine the body, build the request (construction
failure is an internal error), set the headers, then dispatch through `send`
and map the response. -/
def run (env : RunEnv) (conf : httpOutputConfig) (t : Task) (w : RaceWinner) :
    RunOutcome × RunEffects :=
  match determineBody env conf t with
  | Except.error key =>
    (RunOutcome.ret (setErrorT t (TErr.wrongInput key) TaskResult.missingInput) none,
     { requestBuilt := none, networkCalled := false, contextCancelled := false,
       publishedKeys := [], callbackRegistered := false })
  | Except.ok (reader, length) =>
    match env.newRequestErr conf.Method (env.replaceTokens t conf.URLPattern) with
    | some msg =>
      (RunOutcome.ret (setErrorT t (TErr.newRequestErr msg) TaskResult.internalServerError) none,
       { requestBuilt := none, networkCalled := false, contextCancelled := false,
         publishedKeys := [], callbackRegistered := false })
    | none =>
      let req := buildHeaders env conf t reader length
      afterSend env conf req (send t req w)

/-- The task after a successful response-code publish (or the unchanged task
when no `response_code_key` is configured): the state in which the body
publish of lines 294-300 runs. -/
def afterCodeTask (env : RunEnv) (conf : httpOutputConfig) (t : Task) (resp : HTTPResponse) :
    Task :=
  if conf.ResponseCodeKey.length ≠ 0 then
    (env.withValue t conf.ResponseCodeKey (TValue.int resp.statusCode)).1
  else t

/-- Whether both configured publishes of a response succeed (vacuously true
for an unconfigured key): the condition under which `Run` reaches the
close-registration block. -/
def publishChainOK (env : RunEnv) (conf : httpOutputConfig) (t : Task) (resp : HTTPResponse) :
    Bool :=
  (conf.ResponseCodeKey.length = 0 ||
    (env.withValue t conf.ResponseCodeKey (TValue.int resp.statusCode)).2.isNone) &&
  (conf.ResponseBodyIOKey.length = 0 ||
    (env.withValue (afterCodeTask env conf t resp) conf.ResponseBodyIOKey
      (TValue.reader resp.body)).2.isNone)

/-! ### Concrete environments, configurations and tasks used to evaluate the
theorems on closed inputs -/

/-- A small deterministic instantiation of the validation environment: the
base prepare always succeeds, exactly one URL parses, every template scans,
the standard method list, every regex compiles, one key pair loads, no CA
file exists. -/
def testEnv : Env :=
  { commonPrepareOK := fun _ => true
    parseRequestURI := fun s =>
      if s = "http://example.com/a" then
        some { isAbs := true, hostname := "example.com", scheme := "http" }
      else none
    scanTokensOK := fun _ => true
    supportedMethods := fun m =>
      ["GET", "HEAD", "POST", "PUT", "PATCH", "DELETE", "CONNECT", "OPTIONS", "TRACE"].contains m
    regexCompiles := fun _ => true
    loadKeyPair := fun cf kf =>
      if cf = "c.pem" ∧ kf = "k.pem" then some { certPEM := "c", keyPEM := "k" } else none
    readFile := fun _ => none }

/-- A raw (unvalidated) configuration that `testEnv` accepts, with
whitespace to exercise the trimming. -/
def rawConfig : httpOutputConfig :=
  { common := { pluginName := "out" }
    URLPattern := " http://example.com/a "
    HeaderPatterns := [("X-Id", "v1")]
    Close := true
    RequestBodyBufferPattern := "hello"
    Method := "GET "
    ExpectedResponseCode := "2.."
    TimeoutSec := 120
    CertFile := "c.pem"
    KeyFile := "k.pem"
    CAFile := ""
    Insecure := false
    RequestBodyIOKey := ""
    ResponseCodeKey := "code"
    ResponseBodyIOKey := "body"
    expectedResponseCode := none
    cert := none
    caCert := none }

/-- The validated configuration `prepare testEnv rawConfig` produces. -/
def preparedConfig : httpOutputConfig :=
  { common := { pluginName := "out" }
    URLPattern := "http://example.com/a"
    HeaderPatterns := [("X-Id", "v1")]
    Close := true
    RequestBodyBufferPattern := "hello"
    Method := "GET"
    ExpectedResponseCode := "2.."
    TimeoutSec := 120
    CertFile := "c.pem"
    KeyFile := "k.pem"
    CAFile := ""
    Insecure := false
    RequestBodyIOKey := ""
    ResponseCodeKey := "code"
    ResponseBodyIOKey := "body"
    expectedResponseCode := some "2.."
    cert := some { certPEM := "c", keyPEM := "k" }
    caCert := none }

/-- `rawConfig` with an asymmetric TLS configuration: a certificate file but
no key file. -/
def rawConfigCertOnly : httpOutputConfig :=
  { rawConfig with CertFile := "c.pem", KeyFile := "" }

/-- `rawConfig` with an unsupported method AND an URL that does not parse:
used to observe which validation error wins. -/
def rawConfigBadMethodBadURL : httpOutputConfig :=
  { rawConfig with Method := "FOO", URLPattern := "not-a-url" }

/-- `rawConfig` with only the method made invalid. -/
def rawConfigBadMethod : httpOutputConfig :=
  { rawConfig with Method := "FOO" }

/-- A deterministic instantiation of the dispatch-time environment:
templates expand to themselves, request construction always succeeds, task
state writes append to the store, the pattern built from the literal "2.."
matches strings whose first character is 2, every other pattern matches
everything, and the status code prints in decimal. -/
def testRunEnv : RunEnv :=
  { replaceTokens := fun _ p => p
    newRequestErr := fun _ _ => none
    withValue := fun t k v => ({ t with values := t.values ++ [(k, v)] }, none)
    matchRegex := fun p s =>
      if p = "2.." then (match s.data with | '2' :: _ :: _ :: [] => true | _ => false)
      else true
    taskToString := fun n => toString n }

/-- `testRunEnv` whose task-state write fails on the key "body" (and only
there), to exercise the publish-failure path. -/
def failBodyRunEnv : RunEnv :=
  { testRunEnv with
    withValue := fun t k v =>
      if k = "body" then (t, some "value write rejected") else
        ({ t with values := t.values ++ [(k, v)] }, none) }

/-- An empty task with a cancellation cause. -/
def task0 : Task :=
  { values := [], error := none, finishedCallbacks := [], cancelCause := "pipeline shutdown" }

/-- A task whose "in" field holds a string, not a readable stream. -/
def taskBadInput : Task :=
  { task0 with values := [("in", TValue.str "oops")] }

/-- `preparedConfig` with a configured request-body stream key. -/
def confWithBodyKey : httpOutputConfig :=
  { preparedConfig with RequestBodyIOKey := "in" }

/-- `task0` after the response code 200 was published under "code". -/
def taskCodePublished : Task :=
  { task0 with values := [("code", TValue.int 200)] }

/-- `preparedConfig` with a header pattern whose (identity-expanded) name is
exactly User-Agent. -/
def uaConfig : httpOutputConfig :=
  { preparedConfig with HeaderPatterns := [("User-Agent", "custom-agent")] }

/-- A 200 response and a 500 response, as the mock endpoints of the spec. -/
def resp200 : HTTPResponse := { statusCode := 200, body := Reader.handle 7 }

/-- See `resp200`. -/
def resp500 : HTTPResponse := { statusCode := 500, body := Reader.handle 9 }

/-- Decidable equality for `Except`, used to evaluate the theorems on the
concrete inputs above. -/
instance {ε α : Type} [DecidableEq ε] [DecidableEq α] : DecidableEq (Except ε α)
  | Except.ok x, Except.ok y =>
    if h : x = y then isTrue (by rw [h]) else isFalse (by intro hx; cases hx; exact h rfl)
  | Except.ok _, Except.error _ => isFalse (by intro h; cases h)
  | Except.error _, Except.ok _ => isFalse (by intro h; cases h)
  | Except.error e, Except.error f =>
    if h : e = f then isTrue (by rw [h]) else isFalse (by intro hx; cases hx; exact h rfl)

/-! ## Helper lemmas -/

/-! ### `goTrim` is idempotent -/

theorem dropWhile_head? {α : Type} (p : α → Bool) :
    ∀ (l : List α) (c : α), (l.dropWhile p).head? = some c → p c = false
  | [], c => by simp [List.dropWhile]
  | a :: l, c => by
    intro h
    rw [List.dropWhile_cons] at h
    by_cases hp : p a
    · rw [if_pos hp] at h
      exact dropWhile_head? p l c h
    · rw [if_neg hp] at h
      simp only [List.head?_cons, Option.some.injEq] at h
      subst h
      exact Bool.eq_false_iff.mpr hp

theorem dropWhile_eq_self {α : Type} (p : α → Bool) (l : List α)
    (h : ∀ c, l.head? = some c → p c = false) : l.dropWhile p = l := by
  cases l with
  | nil => rfl
  | cons a l =>
    rw [List.dropWhile_cons, if_neg]
    simp [h a rfl]

theorem dropWhile_getLast? {α : Type} (p : α → Bool) :
    ∀ l : List α, l.dropWhile p ≠ [] → (l.dropWhile p).getLast? = l.getLast?
  | [], h => by simp [List.dropWhile] at h
  | a :: l, h => by
    rw [List.dropWhile_cons] at h ⊢
    by_cases hp : p a
    · rw [if_pos hp] at h ⊢
      have hl : l ≠ [] := by
        intro h0
        subst h0
        simp [List.dropWhile] at h
      rw [dropWhile_getLast? p l h]
      cases l with
      | nil => exact absurd rfl hl
      | cons b l => exact (List.getLast?_cons_cons ..).symm
    · rw [if_neg hp]

theorem trimChars_idem (l : List Char) : trimChars (trimChars l) = trimChars l := by
  have headFact : ∀ c, (trimChars l).head? = some c → isGoSpace c = false := by
    intro c hc
    unfold trimChars at hc
    rw [List.head?_reverse] at hc
    have hne : (l.dropWhile isGoSpace).reverse.dropWhile isGoSpace ≠ [] := by
      intro h0
      rw [h0] at hc
      simp at hc
    rw [dropWhile_getLast? _ _ hne, List.getLast?_reverse] at hc
    exact dropWhile_head? _ _ _ hc
  have lastFact : ∀ c, (trimChars l).getLast? = some c → isGoSpace c = false := by
    intro c hc
    unfold trimChars at hc
    rw [List.getLast?_reverse] at hc
    exact dropWhile_head? _ _ _ hc
  have h1 : (trimChars l).dropWhile isGoSpace = trimChars l :=
    dropWhile_eq_self _ _ headFact
  have h2 : (trimChars l).reverse.dropWhile isGoSpace = (trimChars l).reverse := by
    apply dropWhile_eq_self
    intro c hc
    rw [List.head?_reverse] at hc
    exact lastFact c hc
  show (((trimChars l).dropWhile isGoSpace).reverse.dropWhile isGoSpace).reverse = trimChars l
  rw [h1, h2, List.reverse_reverse]

theorem goTrim_idem (s : String) : goTrim (goTrim s) = goTrim s :=
  congrArg String.mk (trimChars_idem s.data)

theorem trimConfig_idem (c : httpOutputConfig) : trimConfig (trimConfig c) = trimConfig c := by
  simp [trimConfig, goTrim_idem]

/-! ### `Header.Set` then `Header.Get` -/

theorem find?_map_set (ck v : String) :
    ∀ hs : List (String × String), hs.any (fun p => p.1 == ck) = true →
      (hs.map (fun p => if p.1 == ck then (ck, v) else p)).find? (fun p => p.1 == ck) =
        some (ck, v)
  | [], h => by simp at h
  | (a, b) :: hs, h => by
    by_cases hac : (a == ck) = true
    · simp only [List.map_cons, if_pos hac]
      rw [List.find?_cons_of_pos _ (by simp)]
    · simp only [List.map_cons, if_neg hac]
      rw [List.find?_cons_of_neg _ (by simpa using hac)]
      refine find?_map_set ck v hs ?_
      rw [List.any_cons] at h
      simpa [hac] using h

theorem find?_append_single (ck v : String) :
    ∀ hs : List (String × String), hs.any (fun p => p.1 == ck) = false →
      (hs ++ [(ck, v)]).find? (fun p => p.1 == ck) = some (ck, v)
  | [], _ => by simp [List.find?]
  | (a, b) :: hs, h => by
    rw [List.any_cons, Bool.or_eq_false_iff] at h
    rw [List.cons_append, List.find?_cons_of_neg _ (by simp [h.1])]
    exact find?_append_single ck v hs h.2

theorem headerGet_setHeader (hs : List (String × String)) (k v : String) :
    headerGet (setHeader hs k v) k = some v := by
  unfold headerGet setHeader
  by_cases h : hs.any (fun p => p.1 == canonicalMIMEHeaderKey k) = true
  · rw [if_pos h, find?_map_set _ _ _ h]
    rfl
  · rw [if_neg h, find?_append_single _ _ _ (Bool.eq_false_iff.mpr h)]
    rfl

/-! ### Path analysis of `run` -/

theorem determineBody_missing (env : RunEnv) (conf : httpOutputConfig) (t : Task)
    (hk : conf.RequestBodyIOKey.length ≠ 0)
    (hv : isReaderValue (taskValue t conf.RequestBodyIOKey) = false) :
    determineBody env conf t = Except.error conf.RequestBodyIOKey := by
  unfold determineBody
  rw [if_pos hk]
  cases hval : taskValue t conf.RequestBodyIOKey <;> simp_all [isReaderValue]

theorem afterSend_effects (env : RunEnv) (conf : httpOutputConfig) (req : HTTPRequest)
    (s : SendResult) :
    (afterSend env conf req s).2.requestBuilt = some req ∧
    (afterSend env conf req s).2.networkCalled = true ∧
    (afterSend env conf req s).2.contextCancelled = s.contextCancelled := by
  unfold afterSend
  cases s.err with
  | some e => simp
  | none =>
    cases s.resp with
    | none => simp
    | some resp =>
      cases conf.expectedResponseCode with
      | none => simp
      | some pat =>
        dsimp only
        by_cases hm : env.matchRegex pat (env.taskToString resp.statusCode) = false
        · rw [if_pos hm]
          exact ⟨rfl, rfl, rfl⟩
        · rw [if_neg hm]
          exact ⟨rfl, rfl, rfl⟩

/-- Any `run` whose effects show the network was called went through the
full path: body determined, request construction succeeded, and the result
is `afterSend` applied to the built request and the race outcome. -/
theorem run_net (env : RunEnv) (conf : httpOutputConfig) (t : Task) (w : RaceWinner)
    (o : RunOutcome) (eff : RunEffects)
    (h : run env conf t w = (o, eff)) (hnet : eff.networkCalled = true) :
    ∃ reader length,
      determineBody env conf t = Except.ok (reader, length) ∧
      (o, eff) = afterSend env conf (buildHeaders env conf t reader length)
          (send t (buildHeaders env conf t reader length) w) := by
  unfold run at h
  cases hdb : determineBody env conf t with
  | error key =>
    rw [hdb] at h
    injection h with h1 h2
    subst h2
    simp at hnet
  | ok rl =>
    obtain ⟨reader, length⟩ := rl
    rw [hdb] at h
    cases hnr : env.newRequestErr conf.Method (env.replaceTokens t conf.URLPattern) with
    | some msg =>
      rw [hnr] at h
      injection h with h1 h2
      subst h2
      simp at hnet
    | none =>
      rw [hnr] at h
      exact ⟨reader, length, rfl, h.symm⟩

/-! ### Shape of a successful `prepare` -/

theorem bool_ne_false {b : Bool} (h : ¬ b = false) : b = true := by
  cases b
  · exact absurd rfl h
  · rfl

theorem prepareCA_ok (env : Env) (c c' : httpOutputConfig)
    (h : prepareCA env c = Except.ok c') :
    (c.CAFile.length ≠ 0 ∧ ∃ bs, env.readFile c.CAFile = some bs ∧
      c' = { c with caCert := some bs }) ∨
    (c.CAFile.length = 0 ∧ c' = c) := by
  unfold prepareCA at h
  split at h
  · rename_i hca
    split at h
    · exact Except.noConfusion h
    · rename_i bs hbs
      injection h with h
      exact Or.inl ⟨hca, bs, hbs, h.symm⟩
  · rename_i hca
    injection h with h
    exact Or.inr ⟨not_not.mp hca, h.symm⟩

theorem prepareTrimmed_ok (env : Env) (d c' : httpOutputConfig)
    (h : prepareTrimmed env d = Except.ok c') :
    urlValid env d.URLPattern = true ∧
    env.scanTokensOK d.URLPattern = true ∧
    checkHeaders env d.HeaderPatterns = none ∧
    env.supportedMethods d.Method = true ∧
    env.regexCompiles d.ExpectedResponseCode = true ∧
    env.scanTokensOK d.RequestBodyBufferPattern = true ∧
    ∃ certv cav,
      c' = { d with expectedResponseCode := some d.ExpectedResponseCode,
                    cert := certv, caCert := cav } ∧
      ((d.CertFile.length ≠ 0 ∧ d.KeyFile.length ≠ 0 ∧
          env.loadKeyPair d.CertFile d.KeyFile = certv ∧ certv.isSome = true) ∨
        (¬(d.CertFile.length ≠ 0 ∧ d.KeyFile.length ≠ 0) ∧ certv = d.cert)) ∧
      ((d.CAFile.length ≠ 0 ∧ env.readFile d.CAFile = cav ∧ cav.isSome = true) ∨
        (d.CAFile.length = 0 ∧ cav = d.caCert)) := by
  unfold prepareTrimmed at h
  split at h
  · exact Except.noConfusion h
  · rename_i hu
    split at h
    · exact Except.noConfusion h
    · rename_i hs
      split at h
      · exact Except.noConfusion h
      · rename_i hch
        split at h
        · exact Except.noConfusion h
        · rename_i hm
          split at h
          · exact Except.noConfusion h
          · rename_i hre
            split at h
            · exact Except.noConfusion h
            · rename_i hbb
              refine ⟨bool_ne_false hu, bool_ne_false hs, hch,
                bool_ne_false hm, bool_ne_false hre, bool_ne_false hbb, ?_⟩
              · dsimp only at h
                split at h
                · rename_i hcert
                  split at h
                  · exact Except.noConfusion h
                  · rename_i k hk
                    rcases prepareCA_ok env _ c' h with ⟨hca, bs, hbs, hc⟩ | ⟨hca, hc⟩
                    · exact ⟨some k, some bs, hc, Or.inl ⟨hcert.1, hcert.2, hk, rfl⟩,
                        Or.inl ⟨hca, by rw [hbs], rfl⟩⟩
                    · exact ⟨some k, d.caCert, hc, Or.inl ⟨hcert.1, hcert.2, hk, rfl⟩,
                        Or.inr ⟨hca, rfl⟩⟩
                · rename_i hcert
                  rcases prepareCA_ok env _ c' h with ⟨hca, bs, hbs, hc⟩ | ⟨hca, hc⟩
                  · exact ⟨d.cert, some bs, hc, Or.inr ⟨hcert, rfl⟩,
                      Or.inl ⟨hca, by rw [hbs], rfl⟩⟩
                  · exact ⟨d.cert, d.caCert, hc, Or.inr ⟨hcert, rfl⟩,
                      Or.inr ⟨hca, rfl⟩⟩

theorem prepare_ok (env : Env) (c c' : httpOutputConfig)
    (h : prepare env c = Except.ok c') :
    env.commonPrepareOK c.common = true ∧
    prepareTrimmed env (trimConfig c) = Except.ok c' := by
  unfold prepare at h
  split at h
  · exact Except.noConfusion h
  · rename_i hc
    exact ⟨bool_ne_false hc, h⟩

theorem bool_true_ne_false {b : Bool} (h : b = true) : ¬ b = false := by
  rw [h]
  exact fun hc => Bool.noConfusion hc

/-! ### Behaviour of the post-send stages -/

theorem closeStage_ret (conf : httpOutputConfig) (t : Task) (pub : List String) :
    ∃ t', (closeStage conf t pub).1 = RunOutcome.ret t' none := by
  unfold closeStage
  by_cases hc : conf.Close = true
  · rw [if_pos hc]
    exact ⟨_, rfl⟩
  · rw [if_neg hc]
    exact ⟨_, rfl⟩

theorem publishBody_ret (env : RunEnv) (conf : httpOutputConfig) (t : Task)
    (resp : HTTPResponse) (pub : List String) :
    ∃ t', (publishBody env conf t resp pub).1 = RunOutcome.ret t' none := by
  unfold publishBody
  by_cases hk : conf.ResponseBodyIOKey.length ≠ 0
  · rw [if_pos hk]
    cases hwv : env.withValue t conf.ResponseBodyIOKey (TValue.reader resp.body) with
    | mk t2 merr =>
      cases merr with
      | some msg => exact ⟨_, rfl⟩
      | none => exact closeStage_ret conf t2 _
  · rw [if_neg hk]
    exact closeStage_ret conf t pub

theorem publishCode_ret (env : RunEnv) (conf : httpOutputConfig) (t : Task)
    (resp : HTTPResponse) :
    ∃ t', (publishCode env conf t resp).1 = RunOutcome.ret t' none := by
  unfold publishCode
  by_cases hk : conf.ResponseCodeKey.length ≠ 0
  · rw [if_pos hk]
    cases hwv : env.withValue t conf.ResponseCodeKey (TValue.int resp.statusCode) with
    | mk t2 merr =>
      cases merr with
      | some msg => exact ⟨_, rfl⟩
      | none => exact publishBody_ret env conf t2 resp _
  · rw [if_neg hk]
    exact publishBody_ret env conf t resp _

theorem afterSend_ret (env : RunEnv) (conf : httpOutputConfig) (req : HTTPRequest)
    (t : Task) (resp : HTTPResponse) (pat : String)
    (hpat : conf.expectedResponseCode = some pat) :
    ∃ t', (afterSend env conf req
        (send t req (RaceWinner.worker (WorkerOutcome.success resp)))).1 =
      RunOutcome.ret t' none := by
  unfold afterSend send
  dsimp only
  rw [hpat]
  dsimp only
  by_cases hm : env.matchRegex pat (env.taskToString resp.statusCode) = false
  · rw [if_pos hm]
    exact ⟨_, rfl⟩
  · rw [if_neg hm]
    exact publishCode_ret env conf t resp

theorem afterSend_mismatch (env : RunEnv) (conf : httpOutputConfig) (req : HTTPRequest)
    (t : Task) (resp : HTTPResponse) (pat : String)
    (hpat : conf.expectedResponseCode = some pat)
    (hm : env.matchRegex pat (env.taskToString resp.statusCode) = false) :
    afterSend env conf req (send t req (RaceWinner.worker (WorkerOutcome.success resp))) =
      (RunOutcome.ret (setErrorT t (TErr.codeMismatch resp.statusCode conf.ExpectedResponseCode)
          TaskResult.internalServerError) none,
       { requestBuilt := some req, networkCalled := true, contextCancelled := false,
         publishedKeys := [], callbackRegistered := false }) := by
  unfold afterSend send
  dsimp only
  rw [hpat]
  dsimp only
  rw [if_pos hm]

theorem afterSend_success_match (env : RunEnv) (conf : httpOutputConfig) (req : HTTPRequest)
    (t : Task) (resp : HTTPResponse) (pat : String)
    (hpat : conf.expectedResponseCode = some pat)
    (hm : env.matchRegex pat (env.taskToString resp.statusCode) = true) :
    afterSend env conf req (send t req (RaceWinner.worker (WorkerOutcome.success resp))) =
      ((publishCode env conf t resp).1,
       { requestBuilt := some req, networkCalled := true, contextCancelled := false,
         publishedKeys := (publishCode env conf t resp).2.1,
         callbackRegistered := (publishCode env conf t resp).2.2 }) := by
  unfold afterSend send
  dsimp only
  rw [hpat]
  dsimp only
  rw [if_neg (bool_true_ne_false hm)]

theorem run_req (env : RunEnv) (conf : httpOutputConfig) (t : Task) (w : RaceWinner)
    (o : RunOutcome) (eff : RunEffects) (req : HTTPRequest)
    (h : run env conf t w = (o, eff)) (hreq : eff.requestBuilt = some req) :
    ∃ reader length, req = buildHeaders env conf t reader length := by
  unfold run at h
  cases hdb : determineBody env conf t with
  | error key =>
    rw [hdb] at h
    injection h with h1 h2
    subst h2
    simp at hreq
  | ok rl =>
    obtain ⟨reader, length⟩ := rl
    rw [hdb] at h
    cases hnr : env.newRequestErr conf.Method (env.replaceTokens t conf.URLPattern) with
    | some msg =>
      rw [hnr] at h
      injection h with h1 h2
      subst h2
      simp at hreq
    | none =>
      rw [hnr] at h
      refine ⟨reader, length, ?_⟩
      have he : (afterSend env conf (buildHeaders env conf t reader length)
          (send t (buildHeaders env conf t reader length) w)).2 = eff := congrArg Prod.snd h
      rw [← he] at hreq
      rw [(afterSend_effects env conf (buildHeaders env conf t reader length)
        (send t (buildHeaders env conf t reader length) w)).1] at hreq
      injection hreq with hh
      exact hh.symm

/-! ## Claim theorems -/

/-- C1: in the cancellation-aware send protocol exactly one outcome is acted
upon per dispatch.  If the task's cancellation signal wins the race, `Run`
cancels the execution context, records a task-cancelled error carrying
`t.CancelCause()` on the task, and returns that task with no publish and no
callback registration; a worker completion arriving after the winner was
chosen exits normally for every channel fate (its sends panic into the
closed channels and are swallowed by the deferred `recover`), and performs
no task-state write. -/
theorem send_cancellation_race (env : RunEnv) (conf : httpOutputConfig) (t : Task)
    (o : RunOutcome) (eff : RunEffects)
    (hrun : run env conf t RaceWinner.cancel = (o, eff))
    (hnet : eff.networkCalled = true) :
    o = RunOutcome.ret
        (setErrorT t (TErr.taskCancelled t.cancelCause) TaskResult.taskCancelled) none ∧
    eff.contextCancelled = true ∧
    eff.publishedKeys = [] ∧
    eff.callbackRegistered = false ∧
    (∀ wo eFate rFate, workerFinish wo eFate rFate = GoroutineResult.normalExit) := by
  obtain ⟨reader, length, hdb, heq⟩ := run_net env conf t RaceWinner.cancel o eff hrun hnet
  have heq' : (o, eff) =
      (RunOutcome.ret
        (setErrorT t (TErr.taskCancelled t.cancelCause) TaskResult.taskCancelled) none,
       { requestBuilt := some (buildHeaders env conf t reader length), networkCalled := true,
         contextCancelled := true, publishedKeys := [], callbackRegistered := false }) := heq
  injection heq' with ho he
  subst ho
  subst he
  exact ⟨rfl, rfl, rfl, rfl, fun wo e r => by cases wo <;> cases e <;> cases r <;> rfl⟩

/-- Witness for C1: with the concrete environment, a prepared configuration
and the empty task, the cancellation winner yields the task-cancelled
return and a cancelled context. -/
theorem send_cancellation_race_witness :
    (run testRunEnv preparedConfig task0 RaceWinner.cancel).1 =
      RunOutcome.ret (setErrorT task0 (TErr.taskCancelled "pipeline shutdown")
        TaskResult.taskCancelled) none ∧
    (run testRunEnv preparedConfig task0 RaceWinner.cancel).2.contextCancelled = true := by
  have h := send_cancellation_race testRunEnv preparedConfig task0
    (run testRunEnv preparedConfig task0 RaceWinner.cancel).1
    (run testRunEnv preparedConfig task0 RaceWinner.cancel).2 rfl rfl
  exact ⟨h.1, h.2.1⟩

/-- C6: with a configured `request_body_io_key` whose task field is absent or
not a readable stream, `Run` records a missing-input classification and
returns immediately: no request is built and no network call is attempted. -/
theorem run_missing_input (env : RunEnv) (conf : httpOutputConfig) (t : Task) (w : RaceWinner)
    (hk : conf.RequestBodyIOKey.length ≠ 0)
    (hv : isReaderValue (taskValue t conf.RequestBodyIOKey) = false) :
    run env conf t w =
      (RunOutcome.ret (setErrorT t (TErr.wrongInput conf.RequestBodyIOKey)
          TaskResult.missingInput) none,
       { requestBuilt := none, networkCalled := false, contextCancelled := false,
         publishedKeys := [], callbackRegistered := false }) := by
  unfold run
  rw [determineBody_missing env conf t hk hv]

/-- Witness for C6: the field "in" holds a string, so the dispatch fails with
the missing-input classification without any request or network call. -/
theorem run_missing_input_witness :
    confWithBodyKey.RequestBodyIOKey.length ≠ 0 ∧
    isReaderValue (taskValue taskBadInput confWithBodyKey.RequestBodyIOKey) = false ∧
    run testRunEnv confWithBodyKey taskBadInput
        (RaceWinner.worker (WorkerOutcome.success resp200)) =
      (RunOutcome.ret (setErrorT taskBadInput (TErr.wrongInput "in")
          TaskResult.missingInput) none,
       { requestBuilt := none, networkCalled := false, contextCancelled := false,
         publishedKeys := [], callbackRegistered := false }) :=
  ⟨by decide, by decide,
    run_missing_input testRunEnv confWithBodyKey taskBadInput
      (RaceWinner.worker (WorkerOutcome.success resp200)) (by decide) (by decide)⟩

/-- C7: for every task and every configuration produced by a successful
`Prepare`, `Run` never raises: on every path it returns a task normally and
its error result is nil. -/
theorem run_never_raises (penv : Env) (env : RunEnv) (c0 conf : httpOutputConfig)
    (t : Task) (w : RaceWinner)
    (hprep : prepare penv c0 = Except.ok conf) :
    ∃ t', (run env conf t w).1 = RunOutcome.ret t' none := by
  obtain ⟨-, hpt⟩ := prepare_ok penv c0 conf hprep
  obtain ⟨-, -, -, -, -, -, certv, cav, hshape, -, -⟩ := prepareTrimmed_ok penv _ conf hpt
  have hpat : conf.expectedResponseCode = some (trimConfig c0).ExpectedResponseCode := by
    rw [hshape]
  unfold run
  cases hdb : determineBody env conf t with
  | error key => exact ⟨_, rfl⟩
  | ok rl =>
    obtain ⟨reader, length⟩ := rl
    cases hnr : env.newRequestErr conf.Method (env.replaceTokens t conf.URLPattern) with
    | some msg => exact ⟨_, rfl⟩
    | none =>
      cases w with
      | cancel => exact ⟨_, rfl⟩
      | worker wo =>
        cases wo with
        | failure msg => exact ⟨_, rfl⟩
        | success resp => exact afterSend_ret env conf _ t resp _ hpat

/-- Witness for C7: the validated configuration obtained from `rawConfig`
runs to a normal return on a successful 200 dispatch. -/
theorem run_never_raises_witness :
    ∃ t', (run testRunEnv preparedConfig task0
        (RaceWinner.worker (WorkerOutcome.success resp200))).1 = RunOutcome.ret t' none :=
  run_never_raises testEnv testRunEnv rawConfig preparedConfig task0
    (RaceWinner.worker (WorkerOutcome.success resp200)) (by rfl)

/-- C5: when the transport call succeeds but the decimal status code does not
match the compiled expected-code pattern, `Run` records an internal-error
classification (the mismatch error) on the otherwise-unchanged task and
returns; nothing is published into task state and no close callback is
registered. -/
theorem run_code_mismatch (env : RunEnv) (conf : httpOutputConfig) (t : Task)
    (resp : HTTPResponse) (pat : String) (o : RunOutcome) (eff : RunEffects)
    (hpat : conf.expectedResponseCode = some pat)
    (hm : env.matchRegex pat (env.taskToString resp.statusCode) = false)
    (hrun : run env conf t (RaceWinner.worker (WorkerOutcome.success resp)) = (o, eff))
    (hnet : eff.networkCalled = true) :
    o = RunOutcome.ret (setErrorT t (TErr.codeMismatch resp.statusCode conf.ExpectedResponseCode)
          TaskResult.internalServerError) none ∧
    eff.publishedKeys = [] ∧ eff.callbackRegistered = false := by
  obtain ⟨reader, length, hdb, heq⟩ :=
    run_net env conf t (RaceWinner.worker (WorkerOutcome.success resp)) o eff hrun hnet
  rw [afterSend_mismatch env conf _ t resp pat hpat hm] at heq
  injection heq with ho he
  subst ho
  subst he
  exact ⟨rfl, rfl, rfl⟩

/-- Witness for C5: a 500 response against the pattern "2.." yields the
mismatch internal error, publishes nothing, and registers no callback. -/
theorem run_code_mismatch_witness :
    (run testRunEnv preparedConfig task0 (RaceWinner.worker (WorkerOutcome.success resp500))).1 =
      RunOutcome.ret (setErrorT task0 (TErr.codeMismatch 500 "2..")
        TaskResult.internalServerError) none ∧
    (run testRunEnv preparedConfig task0
      (RaceWinner.worker (WorkerOutcome.success resp500))).2.publishedKeys = [] := by
  have h := run_code_mismatch testRunEnv preparedConfig task0 resp500 "2.."
    (run testRunEnv preparedConfig task0 (RaceWinner.worker (WorkerOutcome.success resp500))).1
    (run testRunEnv preparedConfig task0 (RaceWinner.worker (WorkerOutcome.success resp500))).2
    rfl (by decide) rfl rfl
  exact ⟨h.1, h.2.1⟩

/-- C9: every request handed to `send` carries the fixed
`User-Agent: EaseGateway` header; since the fixed header is set after the
expanded header-pattern pairs, this holds even when a pattern expands to the
name User-Agent. -/
theorem run_user_agent (env : RunEnv) (conf : httpOutputConfig) (t : Task) (w : RaceWinner)
    (o : RunOutcome) (eff : RunEffects) (req : HTTPRequest)
    (hrun : run env conf t w = (o, eff))
    (hreq : eff.requestBuilt = some req) :
    headerGet req.headers "User-Agent" = some "EaseGateway" := by
  obtain ⟨reader, length, hb⟩ := run_req env conf t w o eff req hrun hreq
  subst hb
  exact headerGet_setHeader _ "User-Agent" "EaseGateway"

/-- Witness for C9, on a configuration whose header patterns contain an
entry expanding to the name User-Agent: the dispatched request still carries
the fixed value. -/
theorem run_user_agent_witness :
    (run testRunEnv uaConfig task0 (RaceWinner.worker (WorkerOutcome.success resp200))).2.requestBuilt.isSome = true ∧
    ∀ req, (run testRunEnv uaConfig task0
        (RaceWinner.worker (WorkerOutcome.success resp200))).2.requestBuilt = some req →
      headerGet req.headers "User-Agent" = some "EaseGateway" := by
  refine ⟨by decide, fun req hreq => ?_⟩
  exact run_user_agent testRunEnv uaConfig task0
    (RaceWinner.worker (WorkerOutcome.success resp200))
    (run testRunEnv uaConfig task0 (RaceWinner.worker (WorkerOutcome.success resp200))).1
    (run testRunEnv uaConfig task0 (RaceWinner.worker (WorkerOutcome.success resp200))).2
    req rfl hreq

theorem bool_ne_true {b : Bool} (h : ¬ b = true) : b = false := by
  cases b
  · rfl
  · exact absurd rfl h

theorem contains_addFinishedCallback (t : Task) (n : String) :
    (addFinishedCallback t n).finishedCallbacks.contains n = true := by
  unfold addFinishedCallback
  dsimp only
  by_cases h : t.finishedCallbacks.contains n = true
  · rw [if_pos h]
    exact h
  · rw [if_neg h]
    simp

theorem closeStage_spec (conf : httpOutputConfig) (t : Task) (pub : List String) :
    (closeStage conf t pub).2.1 = pub ∧
    (closeStage conf t pub).2.2 = conf.Close ∧
    ((closeStage conf t pub).2.2 = true →
      ∃ t', (closeStage conf t pub).1 = RunOutcome.ret t' none ∧
        t'.finishedCallbacks.contains (callbackName conf) = true) := by
  unfold closeStage
  by_cases hc : conf.Close = true
  · rw [if_pos hc]
    exact ⟨rfl, hc.symm, fun _ => ⟨_, rfl, contains_addFinishedCallback t _⟩⟩
  · rw [if_neg hc]
    exact ⟨rfl, (bool_ne_true hc).symm, fun hcb => Bool.noConfusion hcb⟩

theorem publishBody_spec (env : RunEnv) (conf : httpOutputConfig) (t : Task)
    (resp : HTTPResponse) (pub : List String) :
    (publishBody env conf t resp pub).2.2 =
      (conf.Close && (decide (conf.ResponseBodyIOKey.length = 0) ||
        (env.withValue t conf.ResponseBodyIOKey (TValue.reader resp.body)).2.isNone)) ∧
    ((publishBody env conf t resp pub).2.2 = true →
      ∃ t', (publishBody env conf t resp pub).1 = RunOutcome.ret t' none ∧
        t'.finishedCallbacks.contains (callbackName conf) = true) := by
  unfold publishBody
  by_cases hk : conf.ResponseBodyIOKey.length ≠ 0
  · rw [if_pos hk]
    have hkd : decide (conf.ResponseBodyIOKey.length = 0) = false := decide_eq_false hk
    cases hwv : env.withValue t conf.ResponseBodyIOKey (TValue.reader resp.body) with
    | mk t2 merr =>
      cases merr with
      | some msg =>
        refine ⟨?_, fun hcb => Bool.noConfusion hcb⟩
        rw [hkd]
        simp
      | none =>
        obtain ⟨-, hcs2, hcs3⟩ := closeStage_spec conf t2 (pub ++ [conf.ResponseBodyIOKey])
        refine ⟨?_, hcs3⟩
        rw [hcs2, hkd]
        simp
  · rw [if_neg hk]
    have hkd : decide (conf.ResponseBodyIOKey.length = 0) = true := decide_eq_true (not_not.mp hk)
    obtain ⟨-, hcs2, hcs3⟩ := closeStage_spec conf t pub
    refine ⟨?_, hcs3⟩
    rw [hcs2, hkd]
    simp

theorem publishCode_spec (env : RunEnv) (conf : httpOutputConfig) (t : Task)
    (resp : HTTPResponse) :
    (publishCode env conf t resp).2.2 = (conf.Close && publishChainOK env conf t resp) ∧
    ((publishCode env conf t resp).2.2 = true →
      ∃ t', (publishCode env conf t resp).1 = RunOutcome.ret t' none ∧
        t'.finishedCallbacks.contains (callbackName conf) = true) := by
  unfold publishCode publishChainOK afterCodeTask
  by_cases hk : conf.ResponseCodeKey.length ≠ 0
  · simp only [if_pos hk]
    have hkd : decide (conf.ResponseCodeKey.length = 0) = false := decide_eq_false hk
    cases hwv : env.withValue t conf.ResponseCodeKey (TValue.int resp.statusCode) with
    | mk t2 merr =>
      cases merr with
      | some msg =>
        refine ⟨?_, fun hcb => Bool.noConfusion hcb⟩
        rw [hkd]
        simp
      | none =>
        obtain ⟨hb1, hb2⟩ := publishBody_spec env conf t2 resp [conf.ResponseCodeKey]
        refine ⟨?_, hb2⟩
        rw [hb1, hkd]
        simp
  · simp only [if_neg hk]
    have hkd : decide (conf.ResponseCodeKey.length = 0) = true := decide_eq_true (not_not.mp hk)
    obtain ⟨hb1, hb2⟩ := publishBody_spec env conf t resp []
    refine ⟨?_, hb2⟩
    rw [hb1, hkd]
    simp

/-- Counterexample for C2: on the code-mismatch path a response was obtained
(the network was called and the worker succeeded) and `close_body_after_pipeline`
is true, yet no close callback is registered and the body is published to no
downstream consumer — the response body is closed by neither party, so
"registered on every path on which a response was obtained" is false of the
code. -/
theorem close_callback_counterexample :
    preparedConfig.Close = true ∧
    (run testRunEnv preparedConfig task0
      (RaceWinner.worker (WorkerOutcome.success resp500))).2.networkCalled = true ∧
    (run testRunEnv preparedConfig task0
      (RaceWinner.worker (WorkerOutcome.success resp500))).2.callbackRegistered = false ∧
    (run testRunEnv preparedConfig task0
      (RaceWinner.worker (WorkerOutcome.success resp500))).2.publishedKeys = [] :=
  ⟨rfl, rfl, rfl, rfl⟩

/-- C2 (amended): on a dispatch that obtained a response, the body-close
finished callback is registered exactly when `close_body_after_pipeline` is
true AND the response survived code validation AND every configured publish
succeeded; when it is registered, the returned task carries the registered
callback (which closes the body exactly once and deregisters itself).  On
the early-error response paths (code mismatch, publish failure) no callback
is registered and the body is not published, so the component closes the
body on neither side there. -/
theorem close_callback_policy (env : RunEnv) (conf : httpOutputConfig) (t : Task)
    (resp : HTTPResponse) (pat : String) (o : RunOutcome) (eff : RunEffects)
    (hpat : conf.expectedResponseCode = some pat)
    (hrun : run env conf t (RaceWinner.worker (WorkerOutcome.success resp)) = (o, eff))
    (hnet : eff.networkCalled = true) :
    eff.callbackRegistered =
      (conf.Close && env.matchRegex pat (env.taskToString resp.statusCode) &&
        publishChainOK env conf t resp) ∧
    (eff.callbackRegistered = true →
      ∃ t', o = RunOutcome.ret t' none ∧
        t'.finishedCallbacks.contains (callbackName conf) = true) := by
  obtain ⟨reader, length, hdb, heq⟩ :=
    run_net env conf t (RaceWinner.worker (WorkerOutcome.success resp)) o eff hrun hnet
  by_cases hm : env.matchRegex pat (env.taskToString resp.statusCode) = false
  · rw [afterSend_mismatch env conf _ t resp pat hpat hm] at heq
    injection heq with ho he
    subst ho
    subst he
    refine ⟨?_, fun hcb => Bool.noConfusion hcb⟩
    rw [hm]
    simp
  · have hm' : env.matchRegex pat (env.taskToString resp.statusCode) = true := bool_ne_false hm
    rw [afterSend_success_match env conf _ t resp pat hpat hm'] at heq
    injection heq with ho he
    subst ho
    subst he
    obtain ⟨hc1, hc2⟩ := publishCode_spec env conf t resp
    constructor
    · show (publishCode env conf t resp).2.2 = _
      rw [hc1, hm']
      simp
    · intro hcb
      exact hc2 hcb

/-- Witness for C2 (amended): on the all-success path with
`close_body_after_pipeline = true`, the callback is registered and present on
the returned task. -/
theorem close_callback_policy_witness :
    (run testRunEnv preparedConfig task0
      (RaceWinner.worker (WorkerOutcome.success resp200))).2.callbackRegistered = true ∧
    (run testRunEnv preparedConfig task0
      (RaceWinner.worker (WorkerOutcome.success resp200))).2.callbackRegistered =
      (preparedConfig.Close && testRunEnv.matchRegex "2.." (testRunEnv.taskToString 200) &&
        publishChainOK testRunEnv preparedConfig task0 resp200) := by
  have h := close_callback_policy testRunEnv preparedConfig task0 resp200 "2.."
    (run testRunEnv preparedConfig task0 (RaceWinner.worker (WorkerOutcome.success resp200))).1
    (run testRunEnv preparedConfig task0 (RaceWinner.worker (WorkerOutcome.success resp200))).2
    rfl rfl rfl
  exact ⟨by decide, h.1⟩

/-- C10: with both publish keys configured, when the response-code publish
succeeds and the response-body publish then fails, `Run` records the
internal-error classification on the task returned by the failing write and
returns; the published response code stays in task state (no rollback: the
returned task is exactly the body-write's task with only its error slot
set), and no close callback is registered even when
`close_body_after_pipeline` is true. -/
theorem run_publish_failure_frame (env : RunEnv) (conf : httpOutputConfig) (t : Task)
    (resp : HTTPResponse) (pat : String) (o : RunOutcome) (eff : RunEffects)
    (t2 tb : Task) (msg : String)
    (hpat : conf.expectedResponseCode = some pat)
    (hm : env.matchRegex pat (env.taskToString resp.statusCode) = true)
    (hck : conf.ResponseCodeKey.length ≠ 0)
    (hbk : conf.ResponseBodyIOKey.length ≠ 0)
    (hcode : env.withValue t conf.ResponseCodeKey (TValue.int resp.statusCode) = (t2, none))
    (hbody : env.withValue t2 conf.ResponseBodyIOKey (TValue.reader resp.body) = (tb, some msg))
    (hrun : run env conf t (RaceWinner.worker (WorkerOutcome.success resp)) = (o, eff))
    (hnet : eff.networkCalled = true) :
    o = RunOutcome.ret (setErrorT tb (TErr.withValueErr msg) TaskResult.internalServerError) none ∧
    eff.publishedKeys = [conf.ResponseCodeKey] ∧
    eff.callbackRegistered = false := by
  obtain ⟨reader, length, hdb, heq⟩ :=
    run_net env conf t (RaceWinner.worker (WorkerOutcome.success resp)) o eff hrun hnet
  rw [afterSend_success_match env conf _ t resp pat hpat hm] at heq
  have hP : publishCode env conf t resp =
      (RunOutcome.ret (setErrorT tb (TErr.withValueErr msg) TaskResult.internalServerError) none,
       [conf.ResponseCodeKey], false) := by
    unfold publishCode
    rw [if_pos hck, hcode]
    dsimp only
    unfold publishBody
    rw [if_pos hbk, hbody]
  rw [hP] at heq
  injection heq with ho he
  subst ho
  subst he
  exact ⟨rfl, rfl, rfl⟩

/-- Witness for C10: with the environment that rejects writes to "body", the
code 200 stays published under "code", the run returns the internal error
from the body write, and no callback is registered although
`close_body_after_pipeline` is true. -/
theorem run_publish_failure_frame_witness :
    (run failBodyRunEnv preparedConfig task0
      (RaceWinner.worker (WorkerOutcome.success resp200))).1 =
      RunOutcome.ret (setErrorT taskCodePublished (TErr.withValueErr "value write rejected")
        TaskResult.internalServerError) none ∧
    (run failBodyRunEnv preparedConfig task0
      (RaceWinner.worker (WorkerOutcome.success resp200))).2.publishedKeys = ["code"] ∧
    (run failBodyRunEnv preparedConfig task0
      (RaceWinner.worker (WorkerOutcome.success resp200))).2.callbackRegistered = false := by
  have h := run_publish_failure_frame failBodyRunEnv preparedConfig task0 resp200 "2.."
    (run failBodyRunEnv preparedConfig task0 (RaceWinner.worker (WorkerOutcome.success resp200))).1
    (run failBodyRunEnv preparedConfig task0 (RaceWinner.worker (WorkerOutcome.success resp200))).2
    taskCodePublished taskCodePublished "value write rejected"
    rfl (by decide) (by decide) (by decide) (by decide) (by decide) rfl rfl
  exact ⟨h.1, h.2.1, h.2.2⟩

/-! ### Fixpoint behaviour of `prepare` on its own output -/

theorem prepareCA_fixpoint (env : Env) (e : httpOutputConfig) (cav : Option (List Nat))
    (hca : (e.CAFile.length ≠ 0 ∧ env.readFile e.CAFile = cav ∧ cav.isSome = true) ∨
      (e.CAFile.length = 0 ∧ cav = e.caCert)) :
    prepareCA env { e with caCert := cav } = Except.ok { e with caCert := cav } := by
  unfold prepareCA
  dsimp only
  rcases hca with ⟨hca1, hread, hcasome⟩ | ⟨hca0, hcav⟩
  · obtain ⟨bs, hbs⟩ := Option.isSome_iff_exists.mp hcasome
    subst hbs
    rw [if_pos hca1, hread]
  · subst hcav
    rw [if_neg (fun hne => hne hca0)]

theorem prepareTrimmed_fixpoint (env : Env) (d : httpOutputConfig)
    (certv : Option Certificate) (cav : Option (List Nat))
    (hu : urlValid env d.URLPattern = true)
    (hs : env.scanTokensOK d.URLPattern = true)
    (hch : checkHeaders env d.HeaderPatterns = none)
    (hm : env.supportedMethods d.Method = true)
    (hre : env.regexCompiles d.ExpectedResponseCode = true)
    (hbb : env.scanTokensOK d.RequestBodyBufferPattern = true)
    (hcert : (d.CertFile.length ≠ 0 ∧ d.KeyFile.length ≠ 0 ∧
        env.loadKeyPair d.CertFile d.KeyFile = certv ∧ certv.isSome = true) ∨
      (¬(d.CertFile.length ≠ 0 ∧ d.KeyFile.length ≠ 0) ∧ certv = d.cert))
    (hca : (d.CAFile.length ≠ 0 ∧ env.readFile d.CAFile = cav ∧ cav.isSome = true) ∨
      (d.CAFile.length = 0 ∧ cav = d.caCert)) :
    prepareTrimmed env { d with expectedResponseCode := some d.ExpectedResponseCode,
                                cert := certv, caCert := cav } =
      Except.ok { d with expectedResponseCode := some d.ExpectedResponseCode,
                         cert := certv, caCert := cav } := by
  unfold prepareTrimmed
  dsimp only
  rw [if_neg (bool_true_ne_false hu), if_neg (bool_true_ne_false hs), hch]
  dsimp only
  rw [if_neg (bool_true_ne_false hm), if_neg (bool_true_ne_false hre),
    if_neg (bool_true_ne_false hbb)]
  rcases hcert with ⟨h1, h2, hload, hsome⟩ | ⟨hno, hcv⟩
  · obtain ⟨k, hk⟩ := Option.isSome_iff_exists.mp hsome
    subst hk
    rw [if_pos ⟨h1, h2⟩, hload]
    dsimp only
    exact prepareCA_fixpoint env
      { d with expectedResponseCode := some d.ExpectedResponseCode, cert := some k } cav hca
  · subst hcv
    rw [if_neg hno]
    exact prepareCA_fixpoint env
      { d with expectedResponseCode := some d.ExpectedResponseCode, cert := d.cert } cav hca

/-- C8: `Prepare` is idempotent and deterministic (relative to a fixed
external environment): re-preparing the configuration a successful first
`Prepare` produced yields it back unchanged, and two runs on the same raw
input always produce the same result. -/
theorem prepare_idempotent_deterministic (env : Env) (c : httpOutputConfig) :
    (∀ c', prepare env c = Except.ok c' → prepare env c' = Except.ok c') ∧
    (∀ x y : Except PrepareError httpOutputConfig,
      prepare env c = x → prepare env c = y → x = y) := by
  refine ⟨?_, fun x y hx hy => by rw [← hx, ← hy]⟩
  intro c' hok
  obtain ⟨hcom, hpt⟩ := prepare_ok env c c' hok
  obtain ⟨hu, hs, hch, hm, hre, hbb, certv, cav, hshape, hcert, hca⟩ :=
    prepareTrimmed_ok env _ c' hpt
  have hcom' : env.commonPrepareOK c'.common = true := by
    rw [hshape]
    exact hcom
  have htrim : trimConfig c' = c' := by
    rw [hshape]
    simp [trimConfig, goTrim_idem]
  unfold prepare
  rw [if_neg (bool_true_ne_false hcom'), htrim, hshape]
  exact prepareTrimmed_fixpoint env (trimConfig c) certv cav hu hs hch hm hre hbb hcert hca

/-- Witness for C8: `preparedConfig`, the output of a successful `prepare`
over `rawConfig`, is a fixed point of `prepare`. -/
theorem prepare_idempotent_witness :
    prepare testEnv preparedConfig = Except.ok preparedConfig :=
  (prepare_idempotent_deterministic testEnv rawConfig).1 preparedConfig (by rfl)

/-- The certificates the constructor installs are exactly the loaded pair. -/
theorem constructor_certificates (c : httpOutputConfig) :
    (HTTPOutputConstructor c).client.tls.certificates =
      (match c.cert with | some k => [k] | none => []) := by
  unfold HTTPOutputConstructor
  cases c.cert <;> cases c.caCert <;> rfl

/-- Counterexample for C4: a raw configuration giving `cert_file` but not
`key_file` passes validation (no error), contradicting "validation fails
with an error" — the asymmetric pair is silently ignored. -/
theorem tls_pair_counterexample :
    (goTrim rawConfigCertOnly.CertFile).length ≠ 0 ∧
    (goTrim rawConfigCertOnly.KeyFile).length = 0 ∧
    ∃ c', prepare testEnv rawConfigCertOnly = Except.ok c' ∧ c'.cert = none :=
  ⟨by decide, by decide, ⟨_, by rfl, by rfl⟩⟩

/-- C4 (amended): if at most one of `cert_file`/`key_file` is given (after
trimming), `Prepare` silently ignores the TLS pair: it does not fail on that
account, loads no key pair (the cert slot keeps its raw value, none), and
the constructor installs no client certificate.  Only when both are given
must they load as a matching PEM key pair — a load failure fails validation
— and only then is a client certificate installed. -/
theorem tls_pair_policy (env : Env) (c c' : httpOutputConfig)
    (hraw : c.cert = none)
    (hok : prepare env c = Except.ok c') :
    ((goTrim c.CertFile).length = 0 ∨ (goTrim c.KeyFile).length = 0 →
      c'.cert = none ∧ (HTTPOutputConstructor c').client.tls.certificates = []) ∧
    ((goTrim c.CertFile).length ≠ 0 → (goTrim c.KeyFile).length ≠ 0 →
      ∃ k, env.loadKeyPair (goTrim c.CertFile) (goTrim c.KeyFile) = some k ∧
        c'.cert = some k ∧ (HTTPOutputConstructor c').client.tls.certificates = [k]) := by
  obtain ⟨-, hpt⟩ := prepare_ok env c c' hok
  obtain ⟨-, -, -, -, -, -, certv, cav, hshape, hcert, -⟩ := prepareTrimmed_ok env _ c' hpt
  have hc'cert : c'.cert = certv := by rw [hshape]
  constructor
  · intro hzero
    have hnc : certv = none := by
      rcases hcert with ⟨h1, h2, -, -⟩ | ⟨-, hcv⟩
      · cases hzero with
        | inl hz => exact absurd hz h1
        | inr hz => exact absurd hz h2
      · rw [hcv]
        exact hraw
    refine ⟨hc'cert.trans hnc, ?_⟩
    rw [constructor_certificates, hc'cert, hnc]
  · intro h1 h2
    rcases hcert with ⟨-, -, hload, hsome⟩ | ⟨hno, -⟩
    · obtain ⟨k, hk⟩ := Option.isSome_iff_exists.mp hsome
      refine ⟨k, ?_, ?_, ?_⟩
      · rw [hk] at hload
        exact hload
      · rw [hc'cert, hk]
      · rw [constructor_certificates, hc'cert, hk]
    · exact absurd ⟨h1, h2⟩ hno

/-- Witness for C4 (amended): with both files given and loadable, the pair
is loaded and installed in the client's TLS configuration. -/
theorem tls_pair_policy_witness :
    ∃ k, testEnv.loadKeyPair (goTrim rawConfig.CertFile) (goTrim rawConfig.KeyFile) = some k ∧
      preparedConfig.cert = some k ∧
      (HTTPOutputConstructor preparedConfig).client.tls.certificates = [k] :=
  (tls_pair_policy testEnv rawConfig preparedConfig rfl (by rfl)).2 (by decide) (by decide)

/-- Counterexample for C3: with an unsupported method AND an invalid URL,
validation fails with the URL error, not the method error — the method error
is not returned "regardless of the values of all other fields". -/
theorem method_error_counterexample :
    testEnv.supportedMethods (goTrim rawConfigBadMethodBadURL.Method) = false ∧
    prepare testEnv rawConfigBadMethodBadURL = Except.error PrepareError.invalidURL ∧
    PrepareError.invalidURL ≠ PrepareError.invalidHTTPMethod :=
  ⟨by decide, by rfl, by decide⟩

/-- C3 (amended): a configuration whose (trimmed) method is outside the
allow-list always fails validation; the error returned is the method error
exactly when the checks that precede the method check in `Prepare` (the
base prepare, URL validity, URL template scan, header patterns) all pass —
the checks after it (regex, body buffer, TLS files) cannot mask it. -/
theorem method_validation (env : Env) (c : httpOutputConfig)
    (hm : env.supportedMethods (goTrim c.Method) = false) :
    (∀ c', prepare env c ≠ Except.ok c') ∧
    (env.commonPrepareOK c.common = true →
      urlValid env (goTrim c.URLPattern) = true →
      env.scanTokensOK (goTrim c.URLPattern) = true →
      checkHeaders env c.HeaderPatterns = none →
      prepare env c = Except.error PrepareError.invalidHTTPMethod) := by
  constructor
  · intro c' hok
    obtain ⟨-, hpt⟩ := prepare_ok env c c' hok
    obtain ⟨-, -, -, hmm, -⟩ := prepareTrimmed_ok env _ c' hpt
    have hmm' : env.supportedMethods (goTrim c.Method) = true := hmm
    exact Bool.noConfusion (hm.symm.trans hmm')
  · intro hcom hu hsc hch
    unfold prepare
    rw [if_neg (bool_true_ne_false hcom)]
    unfold prepareTrimmed
    dsimp only [trimConfig]
    rw [if_neg (bool_true_ne_false hu), if_neg (bool_true_ne_false hsc), hch]
    dsimp only
    rw [if_pos hm]

/-- Witness for C3 (amended): an unsupported method with every earlier check
passing yields exactly the method error. -/
theorem method_validation_witness :
    prepare testEnv rawConfigBadMethod = Except.error PrepareError.invalidHTTPMethod :=
  (method_validation testEnv rawConfigBadMethod (by decide)).2
    (by decide) (by decide) (by decide) (by decide)

end HTTPOutput
